import Mathlib

/-!
# Verification of the retrieval-augmented answer pipeline

A shallow embedding, in Lean 4, of the core of the Peter-Attia RAG service:
the chunker (`ParsersService.chunkText`), the embedding client
(`EmbeddingService`), the similarity index
(`PrismaService.vectorSimilaritySearch`), the search service
(`SearchService.searchDocuments`), the RAG orchestrator
(`RagService.generateAnswer` with its confidence scoring and mode
resolution) and the chunk-record creation of
`DocumentsService.processDocument`.

JavaScript strings are modelled as `List Char`; JavaScript numbers that can
be `NaN` are modelled as `Option ℚ` (`none` = `NaN`); external boundaries
(the pgvector distance operator, the embedding model, the generation model)
are parameters of the corresponding functions.
-/

/- ## JavaScript number model -/

/-- A JavaScript number that may be `NaN`: `none` models `NaN` (and the
other non-finite results this code can produce), `some q` a finite value. -/
abbrev JsNum := Option ℚ

/-- JavaScript `NaN`. -/
def jsNan : JsNum := none

/-- JavaScript `+` on numbers: `NaN` propagates. -/
def jsAdd : JsNum → JsNum → JsNum
  | some a, some b => some (a + b)
  | _, _ => none

/-- JavaScript `/` on numbers: `NaN` propagates; a zero divisor does not
produce a finite value. -/
def jsDiv : JsNum → JsNum → JsNum
  | some a, some b => if b = 0 then none else some (a / b)
  | _, _ => none

/-- JavaScript `Math.min`: returns `NaN` if any argument is `NaN`. -/
def jsMin : JsNum → JsNum → JsNum
  | some a, some b => some (min a b)
  | _, _ => none

/-- JavaScript `Number(x)` applied to a value that is either a finite number
or absent (`undefined`): `Number(undefined)` is `NaN`. -/
def jsNumberOf : Option ℚ → JsNum
  | none => none
  | some q => some q

/-- JavaScript `x || d` for a possibly-absent number `x`: `undefined`, `NaN`
and `0` are all falsy and select the default `d`. -/
def jsOrQ (x : Option ℚ) (d : ℚ) : ℚ :=
  match x with
  | none => d
  | some q => if q = 0 then d else q

/-- JavaScript `x || d` for a possibly-absent nonnegative integer count:
`undefined` and `0` are falsy and select the default `d`. -/
def jsOrNat (x : Option Nat) (d : Nat) : Nat :=
  match x with
  | none => d
  | some n => if n = 0 then d else n

/-- Whether a JavaScript number is a (finite) value in `[0, 1]`; `NaN` is
not. -/
def jsInUnit : JsNum → Bool
  | none => false
  | some q => decide (0 ≤ q ∧ q ≤ 1)

/- ## Chunker: `ParsersService.chunkText` -/

/-- The whitespace characters removed by JavaScript `String.prototype.trim`
that can occur in extracted document text. -/
def isJsSpace (c : Char) : Bool :=
  c = ' ' || c = '\t' || c = '\n' || c = '\r' || c = '\x0b' || c = '\x0c'

/-- Left half of JavaScript `trim`: drop leading whitespace. -/
def trimL (l : List Char) : List Char := l.dropWhile isJsSpace

/-- Right half of JavaScript `trim`: drop trailing whitespace. -/
def trimR (l : List Char) : List Char := (l.reverse.dropWhile isJsSpace).reverse

/-- JavaScript `String.prototype.trim`. -/
def trimChars (l : List Char) : List Char := trimR (trimL l)

/-- JavaScript `text.lastIndexOf(ch, pos)`: the largest index `i ≤ pos` with
`text[i] = ch`, as `some i`; `none` models the `-1` of a failed search. -/
def lastIndexOfLe (ch : Char) (l : List Char) (pos : Nat) : Option Nat :=
  ((List.range (min (pos + 1) l.length)).filter (fun i => l.get? i = some ch)).getLast?

/-- JavaScript `Math.max` over the two `lastIndexOf` results (`-1` modelled as `none`). -/
def natOptMax : Option Nat → Option Nat → Option Nat
  | none, b => b
  | some a, none => some a
  | some a, some b => some (max a b)

/-- JavaScript `text.substring(s, e)` for `s ≤ e`, clamped to the length. -/
def substringJs (l : List Char) (s e : Nat) : List Char := (l.take e).drop s

/-- The window end-point of one `chunkText` iteration: `min (start +
maxChunkSize) len`, moved to just after the nearest sentence terminator or
newline when one is found strictly later than `start + maxChunkSize * 0.5`
(the comparison `breakPoint > startIndex + maxChunkSize * 0.5` is the exact
integer condition `2 * breakPoint > 2 * startIndex + maxChunkSize`). -/
def chunkEnd (text : List Char) (maxChunkSize startIndex : Nat) : Nat :=
  let endIndex := min (startIndex + maxChunkSize) text.length
  if endIndex < text.length then
    match natOptMax (lastIndexOfLe '.' text endIndex) (lastIndexOfLe '\n' text endIndex) with
    | none => endIndex
    | some breakPoint =>
        if 2 * breakPoint > 2 * startIndex + maxChunkSize then breakPoint + 1 else endIndex
  else endIndex

/-- The advancement of the window start at the end of one `chunkText`
iteration: `startIndex = Math.max(endIndex - overlap, startIndex + 1)`. -/
def nextStart (endIndex overlap startIndex : Nat) : Nat :=
  max (endIndex - overlap) (startIndex + 1)

/-- The scanning loop of `chunkText`, fuel-indexed: `none` means the fuel ran
out before the loop exited. Each iteration with `startIndex < text.length`
computes the window end, trims the window, keeps it when nonempty, and
advances the start by `nextStart`. -/
def chunkLoop (text : List Char) (maxChunkSize overlap : Nat) :
    Nat → Nat → Option (List (List Char))
  | 0, startIndex => if startIndex < text.length then none else some []
  | fuel + 1, startIndex =>
    if startIndex < text.length then
      let endIndex := chunkEnd text maxChunkSize startIndex
      let chunk := trimChars (substringJs text startIndex endIndex)
      (chunkLoop text maxChunkSize overlap fuel (nextStart endIndex overlap startIndex)).map
        (fun rest => if 0 < chunk.length then chunk :: rest else rest)
    else some []

/-- The chunker `ParsersService.chunkText(text, maxChunkSize = 1000, overlap = 200)`:
returns `[text]` whole when `text.length ≤ maxChunkSize`, otherwise runs the
scanning loop and keeps only the chunks longer than 50 characters. A fuel of
`text.length` is enough for the loop (proved below), so `getD []` never
fires. -/
def chunkText (text : List Char) (maxChunkSize overlap : Nat) : List (List Char) :=
  if text.length ≤ maxChunkSize then [text]
  else
    ((chunkLoop text maxChunkSize overlap text.length 0).getD []).filter
      (fun chunk => 50 < chunk.length)

/- ## Chunk records: `DocumentsService.processDocument` -/

/-- First index at which `pattern` occurs as a contiguous run in `text`
(`some i`), or `none` when it does not occur. -/
def findSublist (pattern : List Char) : List Char → Option Nat
  | [] => if pattern.isPrefixOf ([] : List Char) then some 0 else none
  | a :: rest =>
    if pattern.isPrefixOf (a :: rest) then some 0
    else (findSublist pattern rest).map (· + 1)

/-- JavaScript `text.indexOf(pattern)`: the first occurrence, `-1` if none. -/
def indexOfSub (pattern text : List Char) : Int :=
  match findSublist pattern text with
  | none => -1
  | some i => (i : Int)

/-- One chunk row as created by `DocumentsService.processDocument`. -/
structure ChunkRecord where
  content : List Char
  chunkIndex : Nat
  startPosition : Int
  endPosition : Int
deriving DecidableEq

/-- The chunk rows `DocumentsService.processDocument` creates for a parsed
document text: `chunkText` with the default parameters, then for each chunk
`startPos = content.indexOf(chunk)` and `endPos = startPos + chunk.length`. -/
def processDocumentChunks (content : List Char) : List ChunkRecord :=
  (chunkText content 1000 200).enum.map fun p =>
    let startPos := indexOfSub p.2 content
    { content := p.2, chunkIndex := p.1, startPosition := startPos,
      endPosition := startPos + p.2.length }

/- ## Embedding client: `EmbeddingService` -/

/-- One item of the embedding model's response data. -/
structure EmbeddingItem where
  embedding : List ℚ
deriving DecidableEq

/-- Batch embedding `EmbeddingService.generateEmbeddings(texts)`, parameterized by the remote
model's response data (`none` models a response with no `data` field). It
throws (`Except.error`) unless the response holds exactly one item per input
text, and otherwise returns the items' vectors in response order. -/
def generateEmbeddings (texts : List String) (responseData : Option (List EmbeddingItem)) :
    Except String (List (List ℚ)) :=
  match responseData with
  | none => .error ("Expected " ++ toString texts.length ++ " embeddings, got 0")
  | some data =>
    if data.length ≠ texts.length then
      .error ("Expected " ++ toString texts.length ++ " embeddings, got " ++
        toString data.length)
    else
      .ok (data.map (·.embedding))

/-- A chunk still lacking an embedding, as read by
`DocumentsService.generateMissingEmbeddings`. -/
structure PendingChunk where
  id : String
  content : String
deriving DecidableEq

/-- One batch iteration of `DocumentsService.generateMissingEmbeddings`: the
batch's contents go to `generateEmbeddings`; on success each chunk is paired
with its vector and written back, on failure the whole batch is skipped (the
`catch` only counts the failures), so no vector of the batch is attached. -/
def processEmbeddingBatch (batch : List PendingChunk)
    (responseData : Option (List EmbeddingItem)) : List (String × List ℚ) :=
  match generateEmbeddings (batch.map (·.content)) responseData with
  | .error _ => []
  | .ok embeddings => (batch.zip embeddings).map fun p => (p.1.id, p.2)

/-- Dot product accumulated by the loop of `calculateCosineSimilarity`. -/
def dotList (a b : List ℝ) : ℝ := ((a.zip b).map fun p => p.1 * p.2).sum

/-- JavaScript `Math.sqrt` of the accumulated sum of squares: the Euclidean norm. -/
noncomputable def l2norm (v : List ℝ) : ℝ := Real.sqrt ((v.map fun x => x * x).sum)

/-- Cosine similarity `EmbeddingService.calculateCosineSimilarity(a, b)`: throws on a length
mismatch; returns `0` when either norm is `0`; otherwise divides the dot
product by the product of the norms. -/
noncomputable def calculateCosineSimilarity (a b : List ℝ) : Except String ℝ :=
  if a.length ≠ b.length then .error "Vectors must have the same length"
  else
    open Classical in
    if l2norm a = 0 ∨ l2norm b = 0 then .ok 0
    else .ok (dotList a b / (l2norm a * l2norm b))

/- ## Similarity index: `PrismaService.vectorSimilaritySearch` -/

/-- One row of `document_chunks` joined with its document, as the search
query sees it: `embedding` is the nullable vector column. -/
structure DbChunk where
  id : String
  content : String
  document_id : String
  filename : String
  file_type : String
  embedding : Option (List ℚ)
deriving DecidableEq

/-- The row shape produced by the SELECT of `vectorSimilaritySearch`: it
selects `id`, `content`, `document_id`, `filename`, `file_type` and
`distance` only — the `similarity` and `chunk_index` fields stay absent
(`none`), which is how reading a missing property yields `undefined`. -/
structure VectorSearchRow where
  id : String
  content : String
  document_id : String
  filename : String
  file_type : String
  distance : ℚ
  similarity : Option ℚ
  chunk_index : Option ℚ
deriving DecidableEq

/-- The similarity index `PrismaService.vectorSimilaritySearch(queryEmbedding, limit, threshold)`,
parameterized by the pgvector cosine-distance operator `dist` (`<=>`). The
SQL keeps rows with a non-null embedding whose raw distance is `< threshold`,
orders by ascending distance and truncates to `limit` rows. -/
def vectorSimilaritySearch (dist : List ℚ → List ℚ → ℚ) (db : List DbChunk)
    (queryEmbedding : List ℚ) (limit : Nat) (threshold : ℚ) : List VectorSearchRow :=
  let candidates := db.filterMap fun c =>
    match c.embedding with
    | none => none
    | some e =>
      let d := dist e queryEmbedding
      if d < threshold then
        some { id := c.id, content := c.content, document_id := c.document_id,
               filename := c.filename, file_type := c.file_type, distance := d,
               similarity := none, chunk_index := none }
      else none
  (candidates.mergeSort (fun r s => decide (r.distance ≤ s.distance))).take limit

/- ## Search service: `SearchService.searchDocuments` -/

/-- The request body of the semantic search endpoint. -/
structure SearchDto where
  query : String
  limit : Option Nat
  threshold : Option ℚ
deriving DecidableEq

/-- The shape `SearchResultDto`: what `searchDocuments` maps each row to. `similarity`
and `chunkIndex` come from `Number(result.similarity)` and
`Number(result.chunk_index)` and are `NaN` when those columns are absent. -/
structure SearchResultDto where
  content : String
  similarity : JsNum
  documentFilename : String
  chunkIndex : JsNum
  documentId : String
  chunkId : String
deriving DecidableEq

/-- The per-row transformation of `SearchService.searchDocuments` (step 3). -/
def toSearchResultDto (r : VectorSearchRow) : SearchResultDto :=
  { content := r.content, similarity := jsNumberOf r.similarity,
    documentFilename := r.filename, chunkIndex := jsNumberOf r.chunk_index,
    documentId := r.document_id, chunkId := r.id }

/-- The response of `SearchService.searchDocuments`. -/
structure SearchResponse where
  results : List SearchResultDto
  totalResults : Nat
deriving DecidableEq

/-- Semantic search `SearchService.searchDocuments(searchDto)`, parameterized by the query
embedder and the distance operator: embeds the query, runs the vector
search with `limit || 5` and `threshold || 0.7`, and maps rows to DTOs. -/
def searchDocuments (dist : List ℚ → List ℚ → ℚ) (embed : String → List ℚ)
    (db : List DbChunk) (dto : SearchDto) : SearchResponse :=
  let queryEmbedding := embed dto.query
  let rows := vectorSimilaritySearch dist db queryEmbedding
    (jsOrNat dto.limit 5) (jsOrQ dto.threshold (7/10))
  let results := rows.map toSearchResultDto
  { results := results, totalResults := results.length }

/- ## RAG orchestrator: `RagService` -/

/-- The enum `ResponseMode` from `rag.dto`. -/
inductive ResponseMode where
  | concise
  | detailed
  | bullet_points
  | academic
deriving DecidableEq

/-- The enum `ResponseLanguage` from `rag.dto`. -/
inductive ResponseLanguage where
  | en
  | ru
  | auto
deriving DecidableEq

/-- The request `RagQueryDto`: a question with optional retrieval parameters. -/
structure RagQueryDto where
  question : String
  maxContextChunks : Option Nat
  similarityThreshold : Option ℚ
  responseMode : Option ResponseMode
  language : Option ResponseLanguage
  userId : Option String
deriving DecidableEq

/-- The record `ContextChunk`: one retrieved hit as assembled into the context. -/
structure ContextChunk where
  content : String
  similarity : JsNum
  documentFilename : String
  chunkIndex : JsNum
  documentId : String
  chunkId : String
deriving DecidableEq

/-- The fields of `RagResponseDto` that carry pipeline data (the wall-clock
`timestamp` and random `responseId` are omitted; the three duration fields
are carried as supplied measurements). -/
structure RagResponse where
  answer : String
  question : String
  context : List ContextChunk
  contextCount : Nat
  searchTime : ℚ
  generationTime : ℚ
  totalTime : ℚ
  confidence : JsNum
  sources : List String
  responseMode : ResponseMode
  language : ResponseLanguage
deriving DecidableEq

/-- The retrieval parameters `RagService.generateAnswer` passes to the
search stage: `query.maxContextChunks || 5` and
`query.similarityThreshold || 0.3`. -/
def ragResolvedParams (query : RagQueryDto) : Nat × ℚ :=
  (jsOrNat query.maxContextChunks 5, jsOrQ query.similarityThreshold (3/10))

/-- Confidence scoring `RagService.calculateConfidence(searchResults)`: `0` for no results,
otherwise `Math.min(avgSimilarity + min(count,5)/5 * 0.2, 1.0)` computed
with JavaScript number semantics. -/
def calculateConfidence (searchResults : List SearchResultDto) : JsNum :=
  if searchResults.length = 0 then some 0
  else
    let avgSimilarity := jsDiv (searchResults.foldl (fun sum r => jsAdd sum r.similarity) (some 0))
      (some searchResults.length)
    let resultCount := min searchResults.length 5
    let countBonus : ℚ := (resultCount : ℚ) / 5 * (1/5)
    jsMin (jsAdd avgSimilarity (some countBonus)) (some 1)

/-- Source extraction `RagService.extractUniqueSources(context)`: the source filenames
de-duplicated in first-seen order (`Array.from(new Set(...))`). -/
def extractUniqueSources (context : List ContextChunk) : List String :=
  (context.map (·.documentFilename)).foldl
    (fun acc s => if s ∈ acc then acc else acc ++ [s]) []

/-- The fixed "insufficient information" answer of
`RagService.createNoContextResponse`, by language. -/
def noContextAnswer (language : Option ResponseLanguage) : String :=
  if language = some ResponseLanguage.ru then
    "Извините, я не смог найти релевантную информацию в базе знаний Питера Аттиа для ответа на ваш вопрос. Попробуйте переформулировать вопрос или задать более конкретный вопрос о здоровье, долголетии, питании или тренировках."
  else
    "I'm sorry, I couldn't find relevant information in Peter Attia's knowledge base to answer your question. Please try rephrasing your question or ask something more specific about health, longevity, nutrition, or exercise."

/-- The no-context response `RagService.createNoContextResponse(query, responseId, searchTime)`. -/
def createNoContextResponse (query : RagQueryDto) (searchTime : ℚ) : RagResponse :=
  { answer := noContextAnswer query.language
    question := query.question
    context := []
    contextCount := 0
    searchTime := searchTime
    generationTime := 0
    totalTime := searchTime
    confidence := some 0
    sources := []
    responseMode := query.responseMode.getD ResponseMode.detailed
    language := query.language.getD ResponseLanguage.auto }

/-- The per-hit mapping of `generateAnswer` step 2. -/
def toContextChunk (r : SearchResultDto) : ContextChunk :=
  { content := r.content, similarity := r.similarity,
    documentFilename := r.documentFilename, chunkIndex := r.chunkIndex,
    documentId := r.documentId, chunkId := r.chunkId }

/-- The pipeline `RagService.generateAnswer(query)`, parameterized by the search stage
(`search question limit threshold`, the composition of the query embedding
and the vector search), the generation model call (`llm`, which can fail),
and the two measured stage durations. The returned `Bool` records whether
the generation model was invoked. With zero search results the pipeline
returns the no-context response normally and never calls `llm`. -/
def generateAnswer (search : String → Nat → ℚ → List SearchResultDto)
    (llm : RagQueryDto → List ContextChunk → Except String String)
    (query : RagQueryDto) (searchTime generationTime : ℚ) :
    Except String (RagResponse × Bool) :=
  let p := ragResolvedParams query
  let results := search query.question p.1 p.2
  if results.length = 0 then
    .ok (createNoContextResponse query searchTime, false)
  else
    let context := results.map toContextChunk
    match llm query context with
    | .error e => .error ("Answer generation failed: " ++ e)
    | .ok answer =>
      let confidence := calculateConfidence results
      let sources := extractUniqueSources context
      .ok ({ answer := answer
             question := query.question
             context := context
             contextCount := context.length
             searchTime := searchTime
             generationTime := generationTime
             totalTime := searchTime + generationTime
             confidence := confidence
             sources := sources
             responseMode := query.responseMode.getD ResponseMode.detailed
             language := query.language.getD ResponseLanguage.auto }, true)

/- ## Mode resolution: `TelegramService.handleQuestion` -/

/-- The three modes of the Telegram front-end. -/
inductive TgMode where
  | quick
  | detailed
  | auto
deriving DecidableEq

/-- The mode table of `TelegramService.handleQuestion`: response mode,
`maxContextChunks` and `similarityThreshold` per mode, with `auto` split on
the 50-character question length. -/
def handleQuestionParams (mode : TgMode) (question : String) :
    ResponseMode × Nat × ℚ :=
  match mode with
  | .quick => (ResponseMode.concise, 3, 3/10)
  | .detailed => (ResponseMode.detailed, 8, 1/5)
  | .auto =>
    if question.length < 50 then (ResponseMode.concise, 3, 3/10)
    else (ResponseMode.detailed, 5, 1/4)

/-- The `RagQueryDto` that `TelegramService.handleQuestion` builds and hands
to `RagService.generateAnswer`. -/
def telegramQuery (mode : TgMode) (question : String) (chatId : Int) : RagQueryDto :=
  let p := handleQuestionParams mode question
  { question := question
    maxContextChunks := some p.2.1
    similarityThreshold := some p.2.2
    responseMode := some p.1
    language := some ResponseLanguage.auto
    userId := some ("tg_" ++ toString chatId) }

/- ## Concrete fixtures for witnesses and counterexamples -/

/-- A one-chunk corpus whose only chunk has an embedding. -/
def sampleDb : List DbChunk :=
  [{ id := "c1", content := "zone 2", document_id := "d1", filename := "f.pdf",
     file_type := ".pdf", embedding := some [1] }]

/-- A stand-in for the pgvector cosine-distance operator that returns the
constant `2/5` — the cosine distance between, e.g., the vectors `(3, 4)` and
`(1, 0)`. -/
def constDist : List ℚ → List ℚ → ℚ := fun _ _ => 2/5

/-- A stand-in query embedder. -/
def constEmbed : String → List ℚ := fun _ => [1]

/-- A stand-in distance operator for a close match: constant `1/5`. -/
def nearDist : List ℚ → List ℚ → ℚ := fun _ _ => 1/5

/-- The search stage exactly as `RagService.generateAnswer` reaches it: the
query string and resolved parameters forwarded to
`SearchService.searchDocuments` over `sampleDb`. -/
def pipelineSearch (question : String) (limit : Nat) (threshold : ℚ) :
    List SearchResultDto :=
  (searchDocuments nearDist constEmbed sampleDb
    { query := question, limit := some limit, threshold := some threshold }).results

/-- The row the vector search returns over `sampleDb` for the constant
distance `2/5`. -/
def sampleRow : VectorSearchRow :=
  { id := "c1", content := "zone 2", document_id := "d1", filename := "f.pdf",
    file_type := ".pdf", distance := 2/5, similarity := none, chunk_index := none }

/-- The DTO `searchDocuments` builds from `sampleRow`. -/
def sampleResultDto : SearchResultDto := toSearchResultDto sampleRow

/-- A search hit carrying a finite similarity of `1/2`. -/
def halfSimResult : SearchResultDto :=
  { content := "zone 2", similarity := some (1/2), documentFilename := "f.pdf",
    chunkIndex := none, documentId := "d1", chunkId := "c1" }

/-- A query that supplies no retrieval parameters. -/
def defaultQuery : RagQueryDto :=
  { question := "zone 2 training", maxContextChunks := none,
    similarityThreshold := none, responseMode := none, language := none,
    userId := none }

/-- A query that supplies only a high similarity threshold. -/
def highThresholdQuery : RagQueryDto :=
  { question := "zone 2 training", maxContextChunks := none,
    similarityThreshold := some (9/10), responseMode := none, language := none,
    userId := none }

/-- A query that explicitly supplies `0` for both retrieval parameters. -/
def zeroParamsQuery : RagQueryDto :=
  { question := "q", maxContextChunks := some 0, similarityThreshold := some 0,
    responseMode := none, language := none, userId := none }

/-- A query that explicitly supplies `maxContextChunks = 7`. -/
def sevenChunksQuery : RagQueryDto :=
  { question := "q", maxContextChunks := some 7, similarityThreshold := none,
    responseMode := none, language := none, userId := none }

/- ## Helper lemmas: the chunker -/

theorem nextStart_lt (endIndex overlap startIndex : Nat) :
    startIndex < nextStart endIndex overlap startIndex :=
  Nat.lt_of_lt_of_le (Nat.lt_succ_self _) (Nat.le_max_right _ _)

theorem chunkLoop_isSome (text : List Char) (m o : Nat) :
    ∀ fuel startIndex, text.length ≤ startIndex + fuel →
      (chunkLoop text m o fuel startIndex).isSome := by
  intro fuel
  induction fuel with
  | zero =>
    intro startIndex h
    simp only [chunkLoop]
    rw [if_neg (by omega)]
    simp
  | succ fuel ih =>
    intro startIndex h
    simp only [chunkLoop]
    split
    · have hnext : text.length ≤ nextStart (chunkEnd text m startIndex) o startIndex + fuel := by
        have := nextStart_lt (chunkEnd text m startIndex) o startIndex
        omega
      have := ih (nextStart (chunkEnd text m startIndex) o startIndex) hnext
      simp only [Option.isSome_map']
      exact this
    · simp

theorem dropWhile_dropWhile (p : α → Bool) (l : List α) :
    (l.dropWhile p).dropWhile p = l.dropWhile p := by
  induction l with
  | nil => simp
  | cons a t ih =>
    by_cases h : p a
    · simpa [List.dropWhile_cons_of_pos h] using ih
    · simp [List.dropWhile_cons_of_neg h, h]

theorem trimL_isSuffix (l : List Char) : trimL l <:+ l :=
  List.dropWhile_suffix _

theorem trimR_isPrefix (l : List Char) : trimR l <+: l := by
  have h : (trimR l).reverse <:+ l.reverse := by
    simpa [trimR] using List.dropWhile_suffix (l := l.reverse) isJsSpace
  exact List.reverse_suffix.mp h

theorem trim_isInfix (l : List Char) : trimChars l <:+: l :=
  ((trimR_isPrefix (trimL l)).isInfix).trans (trimL_isSuffix l).isInfix

theorem trimL_trimL (l : List Char) : trimL (trimL l) = trimL l :=
  dropWhile_dropWhile _ _

theorem trimR_trimR (l : List Char) : trimR (trimR l) = trimR l := by
  simp only [trimR, List.reverse_reverse]
  rw [dropWhile_dropWhile]

theorem trimL_head_not (l : List Char) (x : Char) (xs : List Char)
    (h : trimL l = x :: xs) : isJsSpace x = false := by
  have hne : trimL l ≠ [] := by simp [h]
  have := List.head_dropWhile_not isJsSpace l (by simpa [trimL] using hne)
  have hx : (trimL l).head hne = x := by simp [h]
  rw [← hx]
  simpa [trimL] using this

theorem trimL_trimR_trimL (l : List Char) :
    trimL (trimR (trimL l)) = trimR (trimL l) := by
  cases hm : trimL l with
  | nil => simp [hm, trimR, trimL]
  | cons x xs =>
    have hx : isJsSpace x = false := trimL_head_not l x xs hm
    cases hr : trimR (x :: xs) with
    | nil => rfl
    | cons y ys =>
      have hpre : trimR (x :: xs) <+: x :: xs := trimR_isPrefix _
      rw [hr] at hpre
      obtain ⟨t, ht⟩ := hpre
      have hy : y = x := by
        simpa using congrArg (fun u => u.head?) ht
      subst hy
      simp only [trimL]
      rw [List.dropWhile_cons_of_neg (by simp [hx])]

theorem trim_idem (l : List Char) : trimChars (trimChars l) = trimChars l := by
  simp only [trimChars]
  rw [trimL_trimR_trimL, trimR_trimR]

theorem substringJs_isInfix (l : List Char) (s e : Nat) : substringJs l s e <:+: l := by
  have h1 := List.take_prefix e l
  exact ((List.drop_suffix s (l.take e)).isInfix).trans h1.isInfix

theorem chunkLoop_mem (text : List Char) (m o : Nat) :
    ∀ fuel startIndex r, chunkLoop text m o fuel startIndex = some r →
      ∀ c ∈ r, trimChars c = c ∧ c <:+: text := by
  intro fuel
  induction fuel with
  | zero =>
    intro startIndex r h c hc
    simp only [chunkLoop] at h
    split at h
    · exact absurd h (by simp)
    · cases h
      simp at hc
  | succ fuel ih =>
    intro startIndex r h c hc
    simp only [chunkLoop] at h
    split at h
    · cases hr' : chunkLoop text m o fuel
        (nextStart (chunkEnd text m startIndex) o startIndex) with
      | none => rw [hr'] at h; exact absurd h (by simp)
      | some r' =>
        rw [hr'] at h
        simp only [Option.map_some'] at h
        cases h
        by_cases hlen :
            0 < (trimChars (substringJs text startIndex (chunkEnd text m startIndex))).length
        · rw [if_pos hlen] at hc
          rcases List.mem_cons.mp hc with hceq | hcmem
          · subst hceq
            exact ⟨trim_idem _, (trim_isInfix _).trans (substringJs_isInfix _ _ _)⟩
          · exact ih _ r' hr' c hcmem
        · rw [if_neg hlen] at hc
          exact ih _ r' hr' c hc
    · cases h
      simp at hc

theorem chunkLoop_full_isSome (text : List Char) (m o : Nat) :
    ∃ r, chunkLoop text m o text.length 0 = some r := by
  have h := chunkLoop_isSome text m o text.length 0 (by omega)
  exact Option.isSome_iff_exists.mp h

theorem chunkText_eq_of_short (text : List Char) (m o : Nat)
    (h : text.length ≤ m) : chunkText text m o = [text] := by
  simp [chunkText, h]

theorem chunkText_mem_long (text : List Char) (m o : Nat) (hm : m < text.length)
    (c : List Char) (hc : c ∈ chunkText text m o) :
    trimChars c = c ∧ 50 < c.length ∧ c <:+: text := by
  unfold chunkText at hc
  rw [if_neg (by omega)] at hc
  obtain ⟨r, hr⟩ := chunkLoop_full_isSome text m o
  rw [hr] at hc
  simp only [Option.getD_some] at hc
  have hlen : 50 < c.length := by
    have := List.of_mem_filter hc
    simpa using this
  have hmem : c ∈ r := List.mem_of_mem_filter hc
  have := chunkLoop_mem text m o text.length 0 r hr c hmem
  exact ⟨this.1, hlen, this.2⟩

theorem chunkText_isInfix (text : List Char) (m o : Nat)
    (c : List Char) (hc : c ∈ chunkText text m o) : c <:+: text := by
  by_cases h : text.length ≤ m
  · rw [chunkText_eq_of_short text m o h] at hc
    simp only [List.mem_singleton] at hc
    subst hc
    exact List.infix_rfl
  · exact (chunkText_mem_long text m o (by omega) c hc).2.2

theorem chunkText_ne_nil (text : List Char) (m o : Nat) (htext : text ≠ [])
    (c : List Char) (hc : c ∈ chunkText text m o) : c ≠ [] := by
  by_cases h : text.length ≤ m
  · rw [chunkText_eq_of_short text m o h] at hc
    simp only [List.mem_singleton] at hc
    subst hc
    exact htext
  · have := (chunkText_mem_long text m o (by omega) c hc).2.1
    intro hnil
    rw [hnil] at this
    simp at this

/- ## Helper lemmas: substring search -/

theorem findSublist_spec (pattern : List Char) :
    ∀ text i, findSublist pattern text = some i →
      i + pattern.length ≤ text.length ∧ (text.drop i).take pattern.length = pattern := by
  intro text
  induction text with
  | nil =>
    intro i h
    simp only [findSublist] at h
    split at h
    · rename_i hp
      have hpre : pattern <+: ([] : List Char) := List.isPrefixOf_iff_prefix.mp hp
      have hnil : pattern = [] := List.prefix_nil.mp hpre
      cases h
      simp [hnil]
    · exact absurd h (by simp)
  | cons a rest ih =>
    intro i h
    simp only [findSublist] at h
    split at h
    · rename_i hp
      have hpre : pattern <+: a :: rest := List.isPrefixOf_iff_prefix.mp hp
      cases h
      refine ⟨by simpa using hpre.length_le, ?_⟩
      simpa using (List.prefix_iff_eq_take.mp hpre).symm
    · obtain ⟨j, hj, hji⟩ := Option.map_eq_some'.mp h
      obtain ⟨h1, h2⟩ := ih j hj
      subst hji
      exact ⟨by simp only [List.length_cons]; omega, by simpa using h2⟩

theorem findSublist_isSome (pattern : List Char) :
    ∀ text, pattern <:+: text → (findSublist pattern text).isSome := by
  intro text
  induction text with
  | nil =>
    intro h
    have hnil : pattern = [] := by simpa using List.sublist_nil.mp h.sublist
    simp [findSublist, hnil, List.isPrefixOf_iff_prefix]
  | cons a rest ih =>
    intro h
    by_cases hp : pattern.isPrefixOf (a :: rest)
    · simp [findSublist, hp]
    · have hrest : pattern <:+: rest := by
        rcases List.infix_cons_iff.mp h with hpre | hinf
        · have h2 := List.isPrefixOf_iff_prefix.mpr hpre
          exact absurd h2 hp
        · exact hinf
      have := ih hrest
      simp only [findSublist, if_neg hp, Option.isSome_map']
      exact this

/- ## Helper lemmas: similarity search and confidence -/

theorem vectorSimilaritySearch_length_le (dist : List ℚ → List ℚ → ℚ)
    (db : List DbChunk) (q : List ℚ) (limit : Nat) (threshold : ℚ) :
    (vectorSimilaritySearch dist db q limit threshold).length ≤ limit := by
  unfold vectorSimilaritySearch
  simp only [List.length_take]
  exact Nat.min_le_left _ _

theorem vectorSimilaritySearch_mem (dist : List ℚ → List ℚ → ℚ)
    (db : List DbChunk) (q : List ℚ) (limit : Nat) (threshold : ℚ)
    (r : VectorSearchRow) (hr : r ∈ vectorSimilaritySearch dist db q limit threshold) :
    (∃ c ∈ db, ∃ e, c.embedding = some e ∧ r.id = c.id ∧ r.distance = dist e q) ∧
      r.distance < threshold ∧ r.similarity = none ∧ r.chunk_index = none := by
  unfold vectorSimilaritySearch at hr
  have hr1 := List.mem_of_mem_take hr
  have hr2 := (List.mergeSort_perm _ _).mem_iff.mp hr1
  obtain ⟨c, hcmem, hc⟩ := List.mem_filterMap.mp hr2
  cases he : c.embedding with
  | none => rw [he] at hc; exact absurd hc (by simp)
  | some e =>
    rw [he] at hc
    simp only at hc
    split at hc
    · rename_i hd
      cases hc
      exact ⟨⟨c, hcmem, e, he, rfl, rfl⟩, hd, rfl, rfl⟩
    · exact absurd hc (by simp)

theorem jsAdd_some (a b : ℚ) : jsAdd (some a) (some b) = some (a + b) := rfl

theorem jsAdd_nan_right (x : JsNum) : jsAdd x none = none := by
  cases x <;> rfl

theorem foldl_jsAdd_some (l : List SearchResultDto)
    (h : ∀ r ∈ l, r.similarity.isSome) :
    ∀ a : ℚ, l.foldl (fun sum r => jsAdd sum r.similarity) (some a) =
      some (a + (l.map (fun r => r.similarity.getD 0)).sum) := by
  induction l with
  | nil => intro a; simp
  | cons r t ih =>
    intro a
    obtain ⟨q, hq⟩ := Option.isSome_iff_exists.mp (h r (by simp))
    have ht : ∀ s ∈ t, s.similarity.isSome := fun s hs => h s (by simp [hs])
    simp only [List.foldl_cons, hq, jsAdd_some]
    rw [ih ht (a + q)]
    simp [hq]
    ring_nf

theorem calculateConfidence_nil : calculateConfidence [] = some 0 := rfl

theorem calculateConfidence_all_some (results : List SearchResultDto)
    (h : ∀ r ∈ results, r.similarity.isSome) (hne : results ≠ []) :
    calculateConfidence results =
      some (min ((results.map (fun r => r.similarity.getD 0)).sum / results.length +
        (min results.length 5 : ℚ) / 5 * (1/5)) 1) := by
  unfold calculateConfidence
  rw [if_neg (by simpa using hne)]
  rw [foldl_jsAdd_some results h 0]
  have hlen : ((results.length : ℚ)) ≠ 0 := by
    have : results.length ≠ 0 := by simpa using hne
    exact_mod_cast this
  simp only [jsDiv, if_neg hlen, jsMin, zero_add]
  norm_cast


/- ## Claims -/

/-- C3: whenever the search stage of `RagService.generateAnswer` returns zero
results, the pipeline returns the fixed "insufficient information" response —
confidence 0, empty sources, empty context, zero context count and
generation time 0 — as a normal `Except.ok` result, and the generation model
is never invoked (the invocation flag is `false`). -/
theorem c3_no_context_short_circuit
    (search : String → Nat → ℚ → List SearchResultDto)
    (llm : RagQueryDto → List ContextChunk → Except String String)
    (query : RagQueryDto) (searchTime generationTime : ℚ)
    (h : search query.question (ragResolvedParams query).1 (ragResolvedParams query).2 = []) :
    generateAnswer search llm query searchTime generationTime =
      .ok (createNoContextResponse query searchTime, false) ∧
    (createNoContextResponse query searchTime).confidence = some 0 ∧
    (createNoContextResponse query searchTime).sources = [] ∧
    (createNoContextResponse query searchTime).context = [] ∧
    (createNoContextResponse query searchTime).contextCount = 0 ∧
    (createNoContextResponse query searchTime).generationTime = 0 := by
  refine ⟨?_, rfl, rfl, rfl, rfl, rfl⟩
  simp [generateAnswer, h]

/-- C3 witness: a concrete query against an empty search stage. -/
theorem c3_witness :
    generateAnswer (fun _ _ _ => []) (fun _ _ => .ok "an answer")
      highThresholdQuery 1 0 =
      .ok (createNoContextResponse highThresholdQuery 1, false) :=
  (c3_no_context_short_circuit (fun _ _ _ => []) (fun _ _ => .ok "an answer")
    highThresholdQuery 1 0 rfl).1

/-- C5 counterexample: a caller-supplied `maxContextChunks = 0` and
`similarityThreshold = 0` do not override the defaults — JavaScript `||`
treats `0` as falsy, so the resolved parameters are `(5, 0.3)`, not
`(0, 0)`. -/
theorem c5_counterexample :
    ragResolvedParams zeroParamsQuery = (5, 3/10) ∧
    ragResolvedParams zeroParamsQuery ≠ (0, 0) := by
  constructor
  · norm_num [ragResolvedParams, zeroParamsQuery, jsOrNat, jsOrQ]
  · norm_num [ragResolvedParams, zeroParamsQuery, jsOrNat, jsOrQ]

/-- C5 (amended): a caller-supplied value overrides the defaults whenever it
is nonzero (a supplied `0` is falsy for `||` and falls back to
`generateAnswer`'s `5` / `0.3`); through the Telegram handler the mode
defaults are quick → (3, 0.3), detailed → (8, 0.2), auto on a question
shorter than 50 characters → (3, 0.3), auto otherwise → (5, 0.25), and these
nonzero defaults reach the search stage unchanged. -/
theorem c5_amended_mode_resolution :
    (∀ (query : RagQueryDto) (n : Nat), query.maxContextChunks = some n → n ≠ 0 →
      (ragResolvedParams query).1 = n) ∧
    (∀ (query : RagQueryDto) (x : ℚ), query.similarityThreshold = some x → x ≠ 0 →
      (ragResolvedParams query).2 = x) ∧
    (∀ (question : String) (chatId : Int),
      ragResolvedParams (telegramQuery TgMode.quick question chatId) = (3, 3/10)) ∧
    (∀ (question : String) (chatId : Int),
      ragResolvedParams (telegramQuery TgMode.detailed question chatId) = (8, 1/5)) ∧
    (∀ (question : String) (chatId : Int), question.length < 50 →
      ragResolvedParams (telegramQuery TgMode.auto question chatId) = (3, 3/10)) ∧
    (∀ (question : String) (chatId : Int), ¬ question.length < 50 →
      ragResolvedParams (telegramQuery TgMode.auto question chatId) = (5, 1/4)) := by
  refine ⟨?_, ?_, ?_, ?_, ?_, ?_⟩
  · intro query n hq hn
    simp [ragResolvedParams, jsOrNat, hq, hn]
  · intro query x hq hx
    simp [ragResolvedParams, jsOrQ, hq, hx]
  · intro question chatId
    simp [ragResolvedParams, telegramQuery, handleQuestionParams, jsOrNat, jsOrQ]
  · intro question chatId
    norm_num [ragResolvedParams, telegramQuery, handleQuestionParams, jsOrNat, jsOrQ]
  · intro question chatId h
    simp [ragResolvedParams, telegramQuery, handleQuestionParams, jsOrNat, jsOrQ, if_pos h]
  · intro question chatId h
    norm_num [ragResolvedParams, telegramQuery, handleQuestionParams, jsOrNat, jsOrQ, if_neg h]

/-- C5 witness: a nonzero supplied value overrides; a short question in auto
mode resolves to (3, 0.3). -/
theorem c5_witness :
    (ragResolvedParams sevenChunksQuery).1 = 7 ∧
    ragResolvedParams (telegramQuery TgMode.auto "What is zone 2?" 42) = (3, 3/10) :=
  ⟨c5_amended_mode_resolution.1 sevenChunksQuery 7 rfl (by decide),
   c5_amended_mode_resolution.2.2.2.2.1 "What is zone 2?" 42 (by decide)⟩

/-- C6 counterexample: `chunkText` applied to the empty text returns a
singleton holding the empty chunk — not the empty sequence — because a text
no longer than `maxChunkSize` is returned whole, before any trimming or
length-50 filtering. -/
theorem c6_counterexample :
    chunkText [] 1000 200 = [[]] ∧ chunkText [] 1000 200 ≠ [] ∧
    ∃ c ∈ chunkText [] 1000 200, ¬ 50 < c.length := by
  refine ⟨by decide, by decide, by decide⟩

/-- C6 (amended): when the text is strictly longer than `maxChunkSize`,
every chunk returned by `chunkText` is whitespace-trimmed and has length
strictly greater than 50; when the text fits within `maxChunkSize` — the
empty text in particular — the whole text is returned as one unfiltered,
untrimmed chunk. -/
theorem c6_amended_chunk_filtering (text : List Char) (maxChunkSize overlap : Nat) :
    (maxChunkSize < text.length →
      ∀ c ∈ chunkText text maxChunkSize overlap, trimChars c = c ∧ 50 < c.length) ∧
    (text.length ≤ maxChunkSize → chunkText text maxChunkSize overlap = [text]) := by
  constructor
  · intro hm c hc
    have := chunkText_mem_long text maxChunkSize overlap hm c hc
    exact ⟨this.1, this.2.1⟩
  · intro hm
    exact chunkText_eq_of_short text maxChunkSize overlap hm

/-- C6 witness: a 60-character text chunked at size 55 produces a trimmed
chunk of 55 characters. -/
theorem c6_witness :
    trimChars (List.replicate 55 'a') = List.replicate 55 'a' ∧
      50 < (List.replicate 55 'a').length :=
  (c6_amended_chunk_filtering (List.replicate 60 'a') 55 0).1 (by decide)
    (List.replicate 55 'a') (by decide)

/-- C7: the scanning loop of `chunkText` terminates for every text, every
`maxChunkSize` and every `overlap` (including `overlap ≥ maxChunkSize`): the
next window start is `max (previous_end - overlap) (previous_start + 1)`,
which strictly increases the start index, so `text.length - startIndex`
steps always suffice, and in particular the fuel `chunkText` supplies does. -/
theorem c7_chunk_loop_terminates :
    (∀ endIndex overlap startIndex : Nat,
      nextStart endIndex overlap startIndex = max (endIndex - overlap) (startIndex + 1) ∧
      startIndex < nextStart endIndex overlap startIndex) ∧
    (∀ (text : List Char) (maxChunkSize overlap fuel startIndex : Nat),
      text.length ≤ startIndex + fuel →
      (chunkLoop text maxChunkSize overlap fuel startIndex).isSome) ∧
    (∀ (text : List Char) (maxChunkSize overlap : Nat),
      ∃ r, chunkLoop text maxChunkSize overlap text.length 0 = some r) :=
  ⟨fun e o s => ⟨rfl, nextStart_lt e o s⟩,
   fun text m o fuel s h => chunkLoop_isSome text m o fuel s h,
   fun text m o => chunkLoop_full_isSome text m o⟩

/-- C7 witness: the loop finishes within 6 steps on a 6-character text even
with `overlap` far larger than `maxChunkSize`. -/
theorem c7_witness :
    (chunkLoop "abcdef".toList 2 100 6 0).isSome ∧ 0 < nextStart 2 100 0 :=
  ⟨c7_chunk_loop_terminates.2.1 "abcdef".toList 2 100 6 0 (by decide),
   (c7_chunk_loop_terminates.1 2 100 0).2⟩

/-- C1 counterexample: with the service default threshold `0.7`, a chunk at
raw cosine distance `2/5` is returned although its similarity
`1 - 2/5 = 3/5` is below the threshold — the SQL filters the raw distance
(`distance < threshold`), not the similarity. -/
theorem c1_counterexample :
    vectorSimilaritySearch constDist sampleDb [1] 5 (7/10) = [sampleRow] ∧
    ¬ (7/10 : ℚ) ≤ 1 - sampleRow.distance := by
  constructor
  · norm_num [vectorSimilaritySearch, sampleDb, constDist, sampleRow, List.mergeSort,
      List.filterMap_cons, List.filterMap_nil]
  · norm_num [sampleRow]

/-- C1 (amended): the similarity search never returns a chunk whose
embedding is absent and never more than `limit` rows, and every returned row
has raw cosine distance `< threshold` — equivalently, similarity
`> 1 - threshold`: the threshold is applied to the raw distance, not to the
similarity. -/
theorem c1_amended_vector_search (dist : List ℚ → List ℚ → ℚ) (db : List DbChunk)
    (q : List ℚ) (limit : Nat) (threshold : ℚ) (r : VectorSearchRow)
    (hr : r ∈ vectorSimilaritySearch dist db q limit threshold) :
    (vectorSimilaritySearch dist db q limit threshold).length ≤ limit ∧
    (∃ c ∈ db, ∃ e, c.embedding = some e ∧ r.id = c.id ∧ r.distance = dist e q) ∧
    r.distance < threshold ∧ 1 - threshold < 1 - r.distance := by
  have h := vectorSimilaritySearch_mem dist db q limit threshold r hr
  exact ⟨vectorSimilaritySearch_length_le dist db q limit threshold, h.1, h.2.1,
    by have := h.2.1; linarith⟩

/-- C1 witness: the search over the one-chunk corpus. -/
theorem c1_witness :
    (vectorSimilaritySearch constDist sampleDb [1] 5 (7/10)).length ≤ 5 ∧
    (∃ c ∈ sampleDb, ∃ e, c.embedding = some e ∧ sampleRow.id = c.id ∧
      sampleRow.distance = constDist e [1]) ∧
    sampleRow.distance < 7/10 ∧ 1 - (7/10 : ℚ) < 1 - sampleRow.distance :=
  c1_amended_vector_search constDist sampleDb [1] 5 (7/10) sampleRow
    (by norm_num [vectorSimilaritySearch, sampleDb, constDist, sampleRow, List.mergeSort,
      List.filterMap_cons, List.filterMap_nil])

/-- C4: every result of `SearchService.searchDocuments` has
`similarity = NaN` and `chunkIndex = NaN`: the SQL of
`vectorSimilaritySearch` selects no `similarity` and no `chunk_index`
column, so the mapping computes `Number(undefined)`. -/
theorem c4_nan_similarity (dist : List ℚ → List ℚ → ℚ) (embed : String → List ℚ)
    (db : List DbChunk) (dto : SearchDto) (r : SearchResultDto)
    (hr : r ∈ (searchDocuments dist embed db dto).results) :
    r.similarity = jsNan ∧ r.chunkIndex = jsNan := by
  have hres : (searchDocuments dist embed db dto).results =
      (vectorSimilaritySearch dist db (embed dto.query)
        (jsOrNat dto.limit 5) (jsOrQ dto.threshold (7/10))).map toSearchResultDto := rfl
  rw [hres] at hr
  obtain ⟨row, hrow, hmap⟩ := List.mem_map.mp hr
  have h := vectorSimilaritySearch_mem _ _ _ _ _ row hrow
  subst hmap
  simp [toSearchResultDto, jsNumberOf, jsNan, h.2.2.1, h.2.2.2]

/-- C4 witness: the single result of a concrete search carries `NaN` in both
fields. -/
theorem c4_witness :
    sampleResultDto.similarity = jsNan ∧ sampleResultDto.chunkIndex = jsNan :=
  c4_nan_similarity constDist constEmbed sampleDb
    { query := "q", limit := none, threshold := none } sampleResultDto
    (by norm_num [searchDocuments, vectorSimilaritySearch, sampleDb, constDist, constEmbed,
      sampleRow, sampleResultDto, jsOrNat, jsOrQ, List.mergeSort,
      List.filterMap_cons, List.filterMap_nil])

/-- C2 counterexample: a concrete answered query with one retrieved hit
whose confidence is `NaN` — not a value in `[0, 1]` — because the hit's
`similarity` field is `NaN` (see C4) and the averaging propagates it. -/
theorem c2_counterexample :
    ((generateAnswer (fun q n t => pipelineSearch q n t) (fun _ _ => .ok "an answer")
      defaultQuery 1 2).toOption.map (fun p => jsInUnit p.1.confidence)) = some false ∧
    ((generateAnswer (fun q n t => pipelineSearch q n t) (fun _ _ => .ok "an answer")
      defaultQuery 1 2).toOption.map (fun p => p.1.confidence)) = some jsNan := by
  constructor <;>
    norm_num [generateAnswer, pipelineSearch, searchDocuments, vectorSimilaritySearch,
      sampleDb, nearDist, constEmbed, defaultQuery, ragResolvedParams, jsOrNat, jsOrQ,
      toSearchResultDto, calculateConfidence, jsDiv, jsAdd, jsMin, jsNumberOf, jsInUnit,
      jsNan, List.mergeSort, extractUniqueSources, toContextChunk, Except.toOption,
      List.filterMap_cons, List.filterMap_nil]

/-- C2 (amended): the confidence `generateAnswer` returns is always
`calculateConfidence` of the retrieved hits; with zero hits it is exactly
`0`; with at least one hit whose similarities are all finite it equals
`min(avg(similarity) + min(hitCount, 5)/5 * 0.2, 1.0)`; and it lies in
`[0, 1]` whenever every hit similarity is a finite number in `[0, 1]` — but
not unconditionally: a `NaN` similarity (the deployed pipeline's case, see
C4) makes the confidence `NaN`. -/
theorem c2_amended_confidence :
    (calculateConfidence [] = some 0) ∧
    (∀ (search : String → Nat → ℚ → List SearchResultDto)
      (llm : RagQueryDto → List ContextChunk → Except String String)
      (query : RagQueryDto) (st gt : ℚ) (resp : RagResponse) (flag : Bool),
      generateAnswer search llm query st gt = .ok (resp, flag) →
      resp.confidence = calculateConfidence
        (search query.question (ragResolvedParams query).1 (ragResolvedParams query).2)) ∧
    (∀ results : List SearchResultDto,
      (∀ r ∈ results, r.similarity.isSome) → results ≠ [] →
      calculateConfidence results =
        some (min ((results.map (fun r => r.similarity.getD 0)).sum / results.length +
          (min results.length 5 : ℚ) / 5 * (1/5)) 1)) ∧
    (∀ results : List SearchResultDto,
      (∀ r ∈ results, ∃ q, r.similarity = some q ∧ 0 ≤ q ∧ q ≤ 1) →
      jsInUnit (calculateConfidence results) = true) := by
  refine ⟨calculateConfidence_nil, ?_, ?_, ?_⟩
  · intro search llm query st gt resp flag h
    simp only [generateAnswer] at h
    by_cases hres : (search query.question (ragResolvedParams query).1
        (ragResolvedParams query).2).length = 0
    · rw [if_pos hres] at h
      obtain ⟨h1, -⟩ := Prod.mk.injEq .. ▸ Except.ok.inj h
      rw [← h1]
      rw [List.length_eq_zero.mp hres]
      exact calculateConfidence_nil.symm
    · rw [if_neg hres] at h
      cases hllm : llm query ((search query.question (ragResolvedParams query).1
          (ragResolvedParams query).2).map toContextChunk) with
      | error e => rw [hllm] at h; cases h
      | ok answer =>
        rw [hllm] at h
        obtain ⟨h1, -⟩ := Prod.mk.injEq .. ▸ Except.ok.inj h
        rw [← h1]
  · exact calculateConfidence_all_some
  · intro results hall
    by_cases hne : results = []
    · subst hne
      norm_num [calculateConfidence_nil, jsInUnit]
    · have hsome : ∀ r ∈ results, r.similarity.isSome := by
        intro r hr
        obtain ⟨q, hq, -, -⟩ := hall r hr
        simp [hq]
      rw [calculateConfidence_all_some results hsome hne]
      have hn : 0 < (results.length : ℚ) := by
        have : results.length ≠ 0 := by simpa using hne
        exact_mod_cast Nat.pos_of_ne_zero this
      have hsum : 0 ≤ (results.map (fun r => r.similarity.getD 0)).sum := by
        apply List.sum_nonneg
        intro x hx
        obtain ⟨r, hr, rfl⟩ := List.mem_map.mp hx
        obtain ⟨q, hq, hq0, -⟩ := hall r hr
        simpa [hq] using hq0
      have hbonus : (0:ℚ) ≤ (min results.length 5 : ℚ) / 5 * (1/5) := by positivity
      have h0 : (0:ℚ) ≤ min ((results.map (fun r => r.similarity.getD 0)).sum /
          results.length + (min results.length 5 : ℚ) / 5 * (1/5)) 1 := by
        apply le_min _ (by norm_num)
        have : 0 ≤ (results.map (fun r => r.similarity.getD 0)).sum / results.length :=
          div_nonneg hsum (le_of_lt hn)
        linarith
      have h1 : min ((results.map (fun r => r.similarity.getD 0)).sum /
          results.length + (min results.length 5 : ℚ) / 5 * (1/5)) 1 ≤ 1 :=
        min_le_right _ _
      simp only [jsInUnit, decide_eq_true_eq]
      exact ⟨h0, h1⟩

/-- C2 witness: one hit with a finite similarity `1/2` yields confidence
`min(1/2 + 1/5 · 1/5, 1)`, a value in `[0, 1]`. -/
theorem c2_witness :
    calculateConfidence [halfSimResult] =
      some (min ((([halfSimResult].map (fun r => r.similarity.getD 0)).sum / 1) +
        (min 1 5 : ℚ) / 5 * (1/5)) 1) ∧
    jsInUnit (calculateConfidence [halfSimResult]) = true := by
  constructor
  · have h := c2_amended_confidence.2.2.1 [halfSimResult] (by simp [halfSimResult]) (by simp)
    simpa using h
  · exact c2_amended_confidence.2.2.2 [halfSimResult]
      (by intro r hr
          simp only [List.mem_singleton] at hr
          subst hr
          exact ⟨1/2, rfl, by norm_num, by norm_num⟩)

/-- C8: batch embedding either returns exactly one vector per input text, in
the response's (input) order, or fails with a count-mismatch error — also
when the response has no data at all — and a failed batch attaches no
vectors to any chunk (the batch update list is empty). -/
theorem c8_batch_embedding_atomic :
    (∀ (texts : List String) (data : List EmbeddingItem) (es : List (List ℚ)),
      generateEmbeddings texts (some data) = .ok es →
        es.length = texts.length ∧ es = data.map (fun item => item.embedding)) ∧
    (∀ (texts : List String) (data : List EmbeddingItem),
      data.length ≠ texts.length →
        ∃ msg, generateEmbeddings texts (some data) = .error msg) ∧
    (∀ texts : List String, ∃ msg, generateEmbeddings texts none = .error msg) ∧
    (∀ (batch : List PendingChunk) (responseData : Option (List EmbeddingItem)) (msg : String),
      generateEmbeddings (batch.map (fun c => c.content)) responseData = .error msg →
        processEmbeddingBatch batch responseData = []) ∧
    (∀ (batch : List PendingChunk) (data : List EmbeddingItem) (es : List (List ℚ)),
      generateEmbeddings (batch.map (fun c => c.content)) (some data) = .ok es →
        processEmbeddingBatch batch (some data) =
          (batch.zip es).map (fun p => (p.1.id, p.2))) := by
  refine ⟨?_, ?_, ?_, ?_, ?_⟩
  · intro texts data es h
    simp only [generateEmbeddings] at h
    split at h
    · cases h
    · rename_i hlen
      cases h
      constructor
      · simp only [List.length_map]
        omega
      · rfl
  · intro texts data hlen
    refine ⟨"Expected " ++ toString texts.length ++ " embeddings, got " ++
      toString data.length, ?_⟩
    simp only [generateEmbeddings]
    rw [if_pos hlen]
  · intro texts
    exact ⟨_, rfl⟩
  · intro batch responseData msg h
    simp only [processEmbeddingBatch, h]
  · intro batch data es h
    simp only [processEmbeddingBatch, h]

/-- C8 witness: the spec scenario — 5 texts, a response of 4 vectors — fails
with a count-mismatch error, and the corresponding batch update attaches no
vectors. -/
theorem c8_witness :
    (∃ msg, generateEmbeddings ["t1", "t2", "t3", "t4", "t5"]
      (some [EmbeddingItem.mk [1], EmbeddingItem.mk [2], EmbeddingItem.mk [3],
        EmbeddingItem.mk [4]]) = .error msg) ∧
    processEmbeddingBatch [PendingChunk.mk "c1" "t1", PendingChunk.mk "c2" "t2",
      PendingChunk.mk "c3" "t3", PendingChunk.mk "c4" "t4", PendingChunk.mk "c5" "t5"]
      (some [EmbeddingItem.mk [1], EmbeddingItem.mk [2], EmbeddingItem.mk [3],
        EmbeddingItem.mk [4]]) = [] := by
  have h := c8_batch_embedding_atomic.2.1 ["t1", "t2", "t3", "t4", "t5"]
    [EmbeddingItem.mk [1], EmbeddingItem.mk [2], EmbeddingItem.mk [3],
      EmbeddingItem.mk [4]] (by decide)
  obtain ⟨msg, hmsg⟩ := h
  refine ⟨⟨msg, hmsg⟩, ?_⟩
  exact c8_batch_embedding_atomic.2.2.2.1 _ _ msg hmsg

/-- C9 counterexample: a document whose parsed content is empty produces one
chunk record with `startPosition = endPosition = 0`, violating
`start < end`. -/
theorem c9_counterexample :
    processDocumentChunks [] =
      [{ content := [], chunkIndex := 0, startPosition := 0, endPosition := 0 }] ∧
    ∃ rec ∈ processDocumentChunks [], ¬ rec.startPosition < rec.endPosition := by
  constructor
  · decide
  · decide

/-- C9 (amended): every chunk record created by `processDocument` satisfies
`0 ≤ start ≤ end ≤ len(content)` and its content equals
`content[start : end]`; moreover `start < end` holds whenever the document
content is nonempty — the empty document is the only exception, its single
record having `start = end = 0`. -/
theorem c9_amended_offsets_invariant (content : List Char) (rec : ChunkRecord)
    (hrec : rec ∈ processDocumentChunks content) :
    0 ≤ rec.startPosition ∧ rec.startPosition ≤ rec.endPosition ∧
    rec.endPosition ≤ (content.length : Int) ∧
    (∃ s : Nat, rec.startPosition = (s : Int) ∧
      rec.endPosition = (s : Int) + rec.content.length ∧
      (content.drop s).take rec.content.length = rec.content) ∧
    (content ≠ [] → rec.startPosition < rec.endPosition) := by
  unfold processDocumentChunks at hrec
  obtain ⟨⟨i, c⟩, hmem, hrec'⟩ := List.mem_map.mp hrec
  have hc : c ∈ chunkText content 1000 200 :=
    List.getElem?_mem (List.mk_mem_enum_iff_getElem?.mp hmem)
  have hinf : c <:+: content := chunkText_isInfix content 1000 200 c hc
  obtain ⟨s, hs⟩ := Option.isSome_iff_exists.mp (findSublist_isSome c content hinf)
  obtain ⟨hlen, hslice⟩ := findSublist_spec c content s hs
  have hidx : indexOfSub c content = (s : Int) := by
    simp [indexOfSub, hs]
  subst hrec'
  simp only [hidx]
  refine ⟨by positivity, by omega, ?_, ⟨s, rfl, rfl, hslice⟩, ?_⟩
  · have : (s : Int) + c.length ≤ (content.length : Int) := by exact_mod_cast hlen
    simpa using this
  · intro hne
    have hcne : c ≠ [] := chunkText_ne_nil content 1000 200 hne c hc
    have : 0 < c.length := List.length_pos.mpr hcne
    omega

/-- C9 witness: a one-character document yields the record
`(start, end) = (0, 1)` with matching content slice. -/
theorem c9_witness :
    (0:Int) ≤ (ChunkRecord.mk ['x'] 0 0 1).startPosition ∧
    (ChunkRecord.mk ['x'] 0 0 1).startPosition ≤ (ChunkRecord.mk ['x'] 0 0 1).endPosition ∧
    (ChunkRecord.mk ['x'] 0 0 1).endPosition ≤ ((['x'] : List Char).length : Int) ∧
    (∃ s : Nat, (ChunkRecord.mk ['x'] 0 0 1).startPosition = (s : Int) ∧
      (ChunkRecord.mk ['x'] 0 0 1).endPosition =
        (s : Int) + (ChunkRecord.mk ['x'] 0 0 1).content.length ∧
      ((['x'] : List Char).drop s).take (ChunkRecord.mk ['x'] 0 0 1).content.length =
        (ChunkRecord.mk ['x'] 0 0 1).content) ∧
    ((['x'] : List Char) ≠ [] →
      (ChunkRecord.mk ['x'] 0 0 1).startPosition < (ChunkRecord.mk ['x'] 0 0 1).endPosition) :=
  c9_amended_offsets_invariant ['x'] (ChunkRecord.mk ['x'] 0 0 1) (by decide)

/-- C10: `calculateCosineSimilarity` on two equal-length vectors never hits a
division error: it returns `0` when either norm is zero, and otherwise
returns `dot(a,b) / (‖a‖·‖b‖)` with a provably nonzero denominator. -/
theorem c10_cosine_no_division_error (a b : List ℝ) (h : a.length = b.length) :
    ∃ r, calculateCosineSimilarity a b = .ok r ∧
      ((l2norm a = 0 ∨ l2norm b = 0) → r = 0) ∧
      (¬ (l2norm a = 0 ∨ l2norm b = 0) →
        r = dotList a b / (l2norm a * l2norm b) ∧ l2norm a * l2norm b ≠ 0) := by
  unfold calculateCosineSimilarity
  rw [if_neg (by omega)]
  by_cases hz : l2norm a = 0 ∨ l2norm b = 0
  · exact ⟨0, by rw [if_pos hz], fun _ => rfl, fun hc => absurd hz hc⟩
  · refine ⟨dotList a b / (l2norm a * l2norm b), by rw [if_neg hz],
      fun hc => absurd hc hz, fun _ => ⟨rfl, ?_⟩⟩
    push_neg at hz
    exact mul_ne_zero hz.1 hz.2

/-- C10 witness: the degenerate all-zero vectors take the guarded branch and
return `0` rather than dividing. -/
theorem c10_witness : calculateCosineSimilarity [(0:ℝ)] [(0:ℝ)] = .ok 0 := by
  obtain ⟨r, hok, hzero, -⟩ := c10_cosine_no_division_error [(0:ℝ)] [(0:ℝ)] rfl
  have hnorm : l2norm [(0:ℝ)] = 0 := by
    simp [l2norm]
  rw [hok, hzero (Or.inl hnorm)]
